import Mathlib

/-!
Verification development for the PDF-SORTER repository.

The classification core (src/text_layer.py, src/rules.py, src/ocr_utils.py,
src/bank_detect.py) is shallowly embedded below.  Strings are Lean `String`s
and the per-character pipeline works on `List Char` (`String.data`).

External library behaviour is modelled explicitly and finitely:
  * Python `str.casefold` is modelled by `caseFoldChar`, a table covering the
    codepoints this repository's inputs exercise (ASCII uppercase, the Turkish
    uppercase letters, U+0130 LATIN CAPITAL LETTER I WITH DOT ABOVE which
    casefolds to "i" + U+0307, and sharp s); every other character is left
    unchanged, which agrees with Unicode casefold being the identity outside
    its mapping table.
  * the Python regex class `\s` (and `str.strip` / whitespace in `re.sub`)
    is modelled by `isPyWs`, the finite set of Unicode whitespace characters
    Python treats as `\s` for `str` patterns.
  * the two concrete regular expressions the source builds (`has_domain`'s
    tier-(c) pattern and the ziraatkatilim OCR pattern) are embedded as
    explicit nondeterministic matchers over suffix positions, which decide
    exactly the `re.search` boolean the source consumes.
-/

/-- Whitespace characters matched by Python's `\s` on `str` patterns (also the
set stripped by `str.strip()`). -/
def isPyWs (c : Char) : Bool :=
  match c with
  | ' ' | '\t' | '\n' | '\r' | '\x0b' | '\x0c'
  | '\x1c' | '\x1d' | '\x1e' | '\x1f'
  | '\u0085' | '\u00A0' | '\u1680'
  | '\u2000' | '\u2001' | '\u2002' | '\u2003' | '\u2004' | '\u2005'
  | '\u2006' | '\u2007' | '\u2008' | '\u2009' | '\u200A'
  | '\u2028' | '\u2029' | '\u202F' | '\u205F' | '\u3000' => true
  | _ => false

/-- Casefold mapping table: the characters `str.casefold` changes among those
this repository's inputs exercise.  U+0130 casefolds to "i" plus the combining
dot above U+0307 (the reason `normalize_text` strips U+0307 afterwards). -/
def caseFoldTable : List (Char × List Char) :=
  [('A', ['a']), ('B', ['b']), ('C', ['c']), ('D', ['d']), ('E', ['e']),
   ('F', ['f']), ('G', ['g']), ('H', ['h']), ('I', ['i']), ('J', ['j']),
   ('K', ['k']), ('L', ['l']), ('M', ['m']), ('N', ['n']), ('O', ['o']),
   ('P', ['p']), ('Q', ['q']), ('R', ['r']), ('S', ['s']), ('T', ['t']),
   ('U', ['u']), ('V', ['v']), ('W', ['w']), ('X', ['x']), ('Y', ['y']),
   ('Z', ['z']),
   ('\u0130', ['i', '\u0307']),
   ('\u015E', ['\u015F']), ('\u011E', ['\u011F']), ('\u00C7', ['\u00E7']),
   ('\u00D6', ['\u00F6']), ('\u00DC', ['\u00FC']),
   ('\u00DF', ['s', 's'])]

/-- One character of the model of Python `str.casefold`. -/
def caseFoldChar (c : Char) : List Char :=
  match caseFoldTable.find? (fun p => p.1 == c) with
  | some p => p.2
  | none => [c]

/-- Model of Python `str.casefold` over a character list. -/
def caseFold (l : List Char) : List Char :=
  (l.map caseFoldChar).flatten

/-- The `str.maketrans` table of `normalize_text`: Turkish lowercase letters
folded to plain Latin (the source's dict has exactly these six keys). -/
def trTable : List (Char × Char) :=
  [('\u0131', 'i'), ('\u00F6', 'o'), ('\u00FC', 'u'),
   ('\u015F', 's'), ('\u011F', 'g'), ('\u00E7', 'c')]

/-- One character of `str.translate` with `trTable`. -/
def trFold (c : Char) : Char :=
  match trTable.find? (fun p => p.1 == c) with
  | some p => p.2
  | none => c

/-- Worker for `re.sub(r"\s+", " ", t)`: the flag records whether we are in the
middle of a whitespace run whose single replacement space was already
emitted. -/
def subWsF (inRun : Bool) : List Char → List Char
  | [] => []
  | c :: rest =>
    if isPyWs c then
      if inRun then subWsF true rest else ' ' :: subWsF true rest
    else c :: subWsF false rest

/-- Model of `re.sub(r"\s+", " ", t)`: every maximal whitespace run becomes a
single space. -/
def subWs (l : List Char) : List Char := subWsF false l

/-- Model of `str.strip()`: drop whitespace from both ends. -/
def stripChars (l : List Char) : List Char :=
  ((l.dropWhile isPyWs).reverse.dropWhile isPyWs).reverse

/-- Embedding of `text_layer.normalize_text`: casefold, remove U+0307,
translate Turkish letters, collapse whitespace runs to single spaces, strip. -/
def normalize_text (text : String) : String :=
  let t1 := caseFold text.data
  let t2 := t1.filter (fun c => c != '\u0307')
  let t3 := t2.map trFold
  ⟨stripChars (subWs t3)⟩

/-- ASCII lowering, modelling how `re.IGNORECASE` compares the ASCII pattern
letters the source's patterns consist of. -/
def asciiLower (c : Char) : Char :=
  if 'A' ≤ c && c ≤ 'Z' then Char.ofNat (c.toNat + 32) else c

/-- Case-insensitive character comparison for the regex embeddings. -/
def ciEq (a b : Char) : Bool := asciiLower a == asciiLower b

/-- Python's substring test `sub in s`. -/
def pyIn (sub : List Char) (s : List Char) : Bool :=
  sub.isPrefixOf s ||
    match s with
    | [] => false
    | _ :: t => pyIn sub t

/-- Consume the literal (escaped) characters `p` case-insensitively at the
front of `l`; on success return the rest of `l`. -/
def matchLit : List Char → List Char → Option (List Char)
  | [], l => some l
  | _ :: _, [] => none
  | p :: ps, c :: l => if ciEq p c then matchLit ps l else none

/-- Greedy `\s*`: in the source's patterns `\s*` is always followed by a
non-whitespace literal, so greedy consumption decides `re.search` exactly. -/
def eatWs (l : List Char) : List Char := l.dropWhile isPyWs

/-- Match the escaped labels of `has_domain`'s tier-(c) pattern, joined by
`\s*\.\s*`, at the current position. -/
def matchPartsFrom : List (List Char) → List Char → Bool
  | [], _ => true
  | [p], l => (matchLit p l).isSome
  | p :: q :: rest, l =>
    match matchLit p l with
    | none => false
    | some l1 =>
      match eatWs l1 with
      | '.' :: l2 => matchPartsFrom (q :: rest) (eatWs l2)
      | _ => false

/-- Match the whole tier-(c) pattern `(?:www\s*\.\s*)?` + joined labels at the
current position (both branches of the optional `www` prefix are tried). -/
def matchDomAt (parts : List (List Char)) (l : List Char) : Bool :=
  matchPartsFrom parts l ||
    (match matchLit ['w', 'w', 'w'] l with
     | some l1 =>
       match eatWs l1 with
       | '.' :: l2 => matchPartsFrom parts (eatWs l2)
       | _ => false
     | none => false)

/-- `re.search` of the tier-(c) pattern: try every position. -/
def searchDom (parts : List (List Char)) (l : List Char) : Bool :=
  matchDomAt parts l ||
    match l with
    | [] => false
    | _ :: t => searchDom parts t

/-- Python `dom.replace("www.", "")`: delete every occurrence of `www.`. -/
def removeWwwDot : List Char → List Char
  | 'w' :: 'w' :: 'w' :: '.' :: rest => removeWwwDot rest
  | c :: rest => c :: removeWwwDot rest
  | [] => []

/-- Python `dom.split(".")` on a character list. -/
def splitOnDot : List Char → List (List Char)
  | [] => [[]]
  | '.' :: rest => [] :: splitOnDot rest
  | c :: rest =>
    match splitOnDot rest with
    | [] => [[c]]
    | g :: gs => (c :: g) :: gs

/-- The nonempty dot-separated labels of the domain, after dropping `www.`:
`[p for p in dom_no_www.split(".") if p]`. -/
def domParts (dom : List Char) : List (List Char) :=
  (splitOnDot (removeWwwDot dom)).filter (fun p => p ≠ [])

/-- Embedding of `text_layer.has_domain`: the website-domain matcher.  Tier
order as in the source: plain substring, substring of the text with all
whitespace removed, then the `re.search` of the label pattern. -/
def has_domain (text_norm : String) (domain : String) : Bool :=
  let t := text_norm.data
  let compact := t.filter (fun c => !isPyWs c)
  let dom := stripChars (caseFold domain.data)
  if dom = [] then false
  else if pyIn dom t || pyIn dom compact then true
  else
    let parts := domParts dom
    if parts = [] then false
    else searchDom parts t


/-- State-set step: consume one literal character (case-insensitively) in each
surviving position. -/
def stepLit (c : Char) (ss : List (List Char)) : List (List Char) :=
  ss.filterMap fun l =>
    match l with
    | d :: t => if ciEq c d then some t else none
    | [] => none

/-- State-set step: greedy `\s*` in each position (exact here, since every
`\s*` in the embedded patterns is followed by a non-whitespace literal). -/
def stepWs (ss : List (List Char)) : List (List Char) := ss.map eatWs

/-- State-set step: the positions after consuming an optional literal dot,
i.e. the `\.` branch of `\.?`. -/
def stepDot (ss : List (List Char)) : List (List Char) :=
  ss.filterMap fun l =>
    match l with
    | '.' :: t => some t
    | _ => none

/-- Match, at the current position, the bespoke OCR-tolerant pattern the
source builds for `ziraatkatilim.com.tr`:
`(?:www\s*)? z\s*i\s*r\s*a\s*(?:a|e)\s*t\s* k\s*a\s*t\s*i\s*(?:l\s*)?(?:i|l)?\s*m\s* (?:\s*\.?\s*)? c\s*o\s*m\s*\.?\s*t\s*r`
(spaces added here for readability only). -/
def zkMatchAt (l : List Char) : Bool :=
  let s0 := [l]
  let s1 := s0 ++ stepWs (stepLit 'w' (stepLit 'w' (stepLit 'w' s0)))
  let s2 := stepWs (stepLit 'z' s1)
  let s3 := stepWs (stepLit 'i' s2)
  let s4 := stepWs (stepLit 'r' s3)
  let s5 := stepWs (stepLit 'a' s4)
  let s6 := stepWs (stepLit 'a' s5 ++ stepLit 'e' s5)
  let s7 := stepWs (stepLit 't' s6)
  let s8 := stepWs (stepLit 'k' s7)
  let s9 := stepWs (stepLit 'a' s8)
  let s10 := stepWs (stepLit 't' s9)
  let s11 := stepWs (stepLit 'i' s10)
  let s12 := s11 ++ stepWs (stepLit 'l' s11)
  let s13 := s12 ++ stepLit 'i' s12 ++ stepLit 'l' s12
  let s14 := stepWs s13
  let s15 := stepWs (stepLit 'm' s14)
  let t1 := stepWs s15
  let t2 := t1 ++ stepDot t1
  let s16 := s15 ++ stepWs t2
  let s17 := stepWs (stepLit 'c' s16)
  let s18 := stepWs (stepLit 'o' s17)
  let s19 := stepWs (stepLit 'm' s18)
  let s20 := s19 ++ stepDot s19
  let s21 := stepWs s20
  let s22 := stepWs (stepLit 't' s21)
  let s23 := stepLit 'r' s22
  !s23.isEmpty

/-- `re.search` of the ziraatkatilim pattern: try every position. -/
def zkSearch : List Char → Bool
  | [] => zkMatchAt []
  | c :: t => zkMatchAt (c :: t) || zkSearch t

/-- The character class kept by `re.sub(r"[^a-z0-9]", "", t)`. -/
def isLowerAlnum (c : Char) : Bool :=
  ('a' ≤ c && c ≤ 'z') || ('0' ≤ c && c ≤ '9')

/-- Detection record produced by the resolver (the Python dicts
`{"key": ..., "bank": ..., "variant": ..., "method": ...}`). -/
structure DetectionResult where
  key : String
  bank : String
  variant : Option String
  method : String
deriving DecidableEq, Repr

/-- Embedding of `rules.BANK_DOMAINS` in the source's insertion order. -/
def BANK_DOMAINS : List (String × String × List String) :=
  [("PTTBANK", ("PttBank", ["pttbank.ptt.gov.tr"])),
   ("HALKBANK", ("Halkbank", ["halkbank.com.tr"])),
   ("TOMBANK", ("TOM Bank", ["tombank.com.tr"])),
   ("ISBANK", ("Isbank", ["isbank.com.tr"])),
   ("TURKIYE_FINANS", ("TurkiyeFinans", ["turkiyefinans.com.tr"])),
   ("ING", ("ING", ["ing.com.tr"])),
   ("TEB", ("TEB", ["teb.com.tr"])),
   ("VAKIF_KATILIM", ("VakifKatilim", ["vakifkatilim.com.tr"])),
   ("VAKIFBANK", ("VakifBank", ["vakifbank.com.tr"])),
   ("QNB", ("QNB", ["qnb.com.tr"])),
   ("ZIRAAT", ("Ziraat", ["ziraatbank.com.tr"])),
   ("KUVEYT_TURK", ("KuveytTurk", ["kuveytturk.com.tr"])),
   ("GARANTI", ("Garanti", ["garantibbva.com.tr"])),
   ("ENPARA", ("Enpara", ["enpara.com"])),
   ("AKBANK", ("Akbank", ["akbank.com"])),
   ("YAPIKREDI", ("YapiKredi", ["yapikredi.com.tr"])),
   ("DENIZBANK", ("DenizBank", ["denizbank.com.tr", "denizbank.com"])),
   ("FIBABANKA", ("Fibabanka", ["fibabanka.com.tr"])),
   ("UPT", ("UPT", ["upt.com.tr", "uption.com.tr"])),
   ("ZIRAATKATILIM", ("ZiraatKatilim", ["ziraatkatilim.com.tr"])),
   ("ALBARAKA", ("Albaraka", ["albaraka.com.tr"]))]

/-- Embedding of `rules.OCR_DOMAIN_BANKS`, the OCR allowlist. -/
def OCR_DOMAIN_BANKS : List (String × String × List String) :=
  [("DENIZBANK", ("DenizBank", ["denizbank.com.tr", "denizbank.com"])),
   ("ZIRAATKATILIM", ("ZiraatKatilim", ["ziraatkatilim.com.tr"])),
   ("ALBARAKA", ("Albaraka", ["albaraka.com.tr"]))]

/-- Embedding of `rules.DENIZ_TEXT_MARKERS`. -/
def DENIZ_TEXT_MARKERS : List String :=
  ["denizbank a.s", "denizbank a.ş", "denizbank", "mobildeniz"]

/-- Embedding of `rules.detect_bank_by_text_domains`: first configured bank
whose registered domain `has_domain`-matches the normalized text. -/
def detect_bank_by_text_domains (text_norm : String) : Option DetectionResult :=
  BANK_DOMAINS.findSome? fun e =>
    e.2.2.findSome? fun dom =>
      if has_domain text_norm dom then
        some ⟨e.1, e.2.1, none, "text-domain"⟩
      else none

/-- Embedding of `rules.detect_deniz_by_text_name`: the legal-name/brand
marker fallback, used only when no domain matched. -/
def detect_deniz_by_text_name (text_norm : String) : Option DetectionResult :=
  if DENIZ_TEXT_MARKERS.any (fun m => pyIn m.data text_norm.data) then
    some ⟨"DENIZBANK", "DenizBank", none, "text-name"⟩
  else none

/-- Embedding of `rules._has_domain_ocr`: the OCR-tolerant matcher, with the
bespoke fuzzy fallback for `ziraatkatilim.com.tr` only. -/
def _has_domain_ocr (text_norm : String) (domain : String) : Bool :=
  if text_norm = "" || domain = "" then false
  else if has_domain text_norm domain then true
  else
    let dom := stripChars (caseFold domain.data)
    let t := text_norm.data
    if dom = "ziraatkatilim.com.tr".data then
      zkSearch t ||
        (let core := t.filter isLowerAlnum
         pyIn "ziraatkatilimcomtr".data core || pyIn "ziraetkatiimcomtr".data core)
    else false

/-- A PDF document, abstracted to the evidence the classifier reads from it:
the selectable text of its pages, whether `pypdf` can parse it at all (the
`except` branch of `extract_text` collapses any parse failure to `""`), and
the string `ocr_first_page_text` produces for it (`""` whenever the optical
dependencies are missing or any conversion/recognition step fails). -/
structure PdfDoc where
  pages : List String
  readable : Bool
  ocrRaw : String

/-- Embedding of `text_layer.extract_text`: the selectable text of the first
`max_pages` pages joined by newlines; any parse failure yields `""`. -/
def extract_text (doc : PdfDoc) (max_pages : Nat) : String :=
  if doc.readable then
    String.intercalate "\n" (doc.pages.take max_pages)
  else ""

/-- Embedding of `rules.detect_bank_by_ocr_domains`: OCR the first page, then
match only the allowlisted banks' domains with the OCR-tolerant matcher. -/
def detect_bank_by_ocr_domains (doc : PdfDoc) : Option DetectionResult :=
  let raw := doc.ocrRaw
  if raw = "" then none
  else
    let t := normalize_text raw
    OCR_DOMAIN_BANKS.findSome? fun e =>
      e.2.2.findSome? fun dom =>
        if _has_domain_ocr t dom then
          some ⟨e.1, e.2.1, none, "ocr-domain"⟩
        else none

/-- Characters Python's `\w` treats as word constituents, restricted to the
ASCII range plus the Turkish letters that can survive in this pipeline's
inputs (used for the `\b` boundaries of `\bfast\b`). -/
def isWordChar (c : Char) : Bool :=
  c.isAlpha || c.isDigit || c == '_' ||
    ['ı', 'ö', 'ü', 'ş', 'ğ', 'ç',
     'İ', 'Ş', 'Ğ', 'Ç', 'Ö', 'Ü'].contains c

/-- Word-boundary test on the left-hand side of a `\b` position. -/
def boundaryBefore : Option Char → Bool
  | none => true
  | some c => !isWordChar c

/-- Word-boundary test on the right-hand side of a `\b` position. -/
def boundaryAfter (l : List Char) : Bool :=
  match l with
  | [] => true
  | c :: _ => !isWordChar c

/-- Does `\b w \b` match exactly at the current position (`prev` is the
character just before it)? -/
def wordHere (w : List Char) (prev : Option Char) (l : List Char) : Bool :=
  boundaryBefore prev && w.isPrefixOf l && boundaryAfter (l.drop w.length)

/-- Worker for `re.search(r"\b w \b", t)`, scanning every position. -/
def searchWordAux (w : List Char) (prev : Option Char) : List Char → Bool
  | [] => wordHere w prev []
  | c :: rest => wordHere w prev (c :: rest) || searchWordAux w (some c) rest

/-- Embedding of `re.search(r"\bfast\b", text)`-style whole-word search. -/
def searchWord (w : List Char) (t : List Char) : Bool :=
  searchWordAux w none t

/-- Embedding of `rules._variant_deniz`. -/
def _variant_deniz (text_norm : String) : String × String :=
  if searchWord "fast".data text_norm.data then ("DENIZBANK", "FAST")
  else ("DENIZBANK", "UNKNOWN")

/-- Embedding of `rules._variant_albaraka`. -/
def _variant_albaraka (text_norm : String) : String × String :=
  if searchWord "fast".data text_norm.data
      || pyIn "fast sorgu numarasi".data text_norm.data then
    ("ALBARAKA", "FAST")
  else ("ALBARAKA", "UNKNOWN")

/-- Embedding of the `rules.VARIANT_AFTER_BANK` registry (a dict lookup). -/
def VARIANT_AFTER_BANK (bank_key : String) : Option (String → String × String) :=
  if bank_key = "DENIZBANK" then some _variant_deniz
  else if bank_key = "ALBARAKA" then some _variant_albaraka
  else none

/-- Embedding of `rules.apply_variant`. -/
def apply_variant (bank_key : String) (text_norm : String) : String × Option String :=
  match VARIANT_AFTER_BANK bank_key with
  | none => (bank_key, none)
  | some fn =>
    let pv := fn text_norm
    (pv.1, some pv.2)

/-- Embedding of `bank_detect.detect_bank_variant`, the three-attempt cascade:
text-layer domains, then the DenizBank name fallback, then OCR under the
allowlist; all failures yield the UNKNOWN sentinel. -/
def detect_bank_variant (doc : PdfDoc) : DetectionResult :=
  let raw := extract_text doc 2
  let text_norm := normalize_text raw
  let det0 := detect_bank_by_text_domains text_norm
  let det1 :=
    match det0 with
    | some d => some d
    | none => detect_deniz_by_text_name text_norm
  let det2 :=
    match det1 with
    | some d => some d
    | none => detect_bank_by_ocr_domains doc
  match det2 with
  | none => ⟨"UNKNOWN", "Unknown", none, "none"⟩
  | some det =>
    let pv := apply_variant det.key text_norm
    ⟨pv.1, det.bank, pv.2, det.method⟩

/-- Parameters of the `pdf2image.convert_from_path` call in
`ocr_utils.ocr_first_page_text`.  The source passes `first_page=1,
last_page=1` and does not pass `dpi`, so the library default of 200 applies. -/
structure ConvertCall where
  first_page : Nat
  last_page : Nat
  dpi : Nat
deriving DecidableEq, Repr

/-- The concrete conversion call the source makes. -/
def ocrConvertCall : ConvertCall := ⟨1, 1, 200⟩

/-- Possible run-time outcomes of `ocr_first_page_text`'s two try/except
blocks: the optical dependencies may fail to load, the conversion or the
recognition may raise, the conversion may yield no images, or recognition may
return a string (`none` models `image_to_string` returning a falsy value,
mapped to `""` by `or ""`). -/
inductive OcrOutcome where
  | depsMissing : OcrOutcome
  | stepRaised : OcrOutcome
  | noImages : OcrOutcome
  | recognized : Option String → OcrOutcome

/-- Embedding of `ocr_utils.ocr_first_page_text` as a function of the
run-time outcome: every failure collapses to `""`, never an exception. -/
def ocr_first_page_text : OcrOutcome → String
  | OcrOutcome.depsMissing => ""
  | OcrOutcome.stepRaised => ""
  | OcrOutcome.noImages => ""
  | OcrOutcome.recognized none => ""
  | OcrOutcome.recognized (some s) => s


/-- Tier (a) of the spec's description of `has_domain`: the (casefolded,
trimmed) domain is a substring of the text.  Written from the spec's words,
to be compared with the source's `has_domain`. -/
def specTierPlain (t dom : String) : Bool :=
  pyIn (stripChars (caseFold dom.data)) t.data

/-- Tier (b) of the spec's description of `has_domain`: the domain is a
substring of the text with all whitespace removed. -/
def specTierCompact (t dom : String) : Bool :=
  pyIn (stripChars (caseFold dom.data)) (t.data.filter (fun c => !isPyWs c))

/-- Tier (c) of the spec's description of `has_domain`: the regex of the
escaped dot-separated labels, joined with optional whitespace around each
dot, with an optional `www` prefix, matches somewhere in the text. -/
def specTierRegex (t dom : String) : Bool :=
  searchDom (domParts (stripChars (caseFold dom.data))) t.data

/-- Character-level invariant of normalized text: fixed under the casefold
model, fixed under the Turkish-letter translation, and not the combining dot
above. -/
def charInv (d : Char) : Prop :=
  caseFoldChar d = [d] ∧ trFold d = d ∧ d ≠ '\u0307'

/-- No two adjacent whitespace characters (the relation used with
`List.Chain'` to state that whitespace runs are collapsed). -/
def noTwoWs (a b : Char) : Prop :=
  ¬(isPyWs a = true ∧ isPyWs b = true)

/-- The whole normalization pipeline on a character list (the body of
`normalize_text`). -/
def normCore (l : List Char) : List Char :=
  stripChars (subWs (((caseFold l).filter (fun c => c != '\u0307')).map trFold))

theorem apply_variant_fst (k t : String) : (apply_variant k t).1 = k := by
  by_cases h1 : k = "DENIZBANK"
  · subst h1
    have h : apply_variant "DENIZBANK" t
        = ((_variant_deniz t).1, some (_variant_deniz t).2) := rfl
    rw [h]
    unfold _variant_deniz
    split <;> rfl
  · by_cases h2 : k = "ALBARAKA"
    · subst h2
      have h : apply_variant "ALBARAKA" t
          = ((_variant_albaraka t).1, some (_variant_albaraka t).2) := rfl
      rw [h]
      unfold _variant_albaraka
      split <;> rfl
    · unfold apply_variant VARIANT_AFTER_BANK
      rw [if_neg h1, if_neg h2]

theorem text_domains_shape {t : String} {d : DetectionResult}
    (h : detect_bank_by_text_domains t = some d) :
    d.method = "text-domain" ∧ d.variant = none := by
  unfold detect_bank_by_text_domains at h
  obtain ⟨e, he, h2⟩ := List.exists_of_findSome?_eq_some h
  obtain ⟨dom, hdom, h3⟩ := List.exists_of_findSome?_eq_some h2
  by_cases hd : has_domain t dom
  · rw [if_pos hd] at h3
    cases h3
    exact ⟨rfl, rfl⟩
  · rw [if_neg hd] at h3
    cases h3

theorem deniz_shape {t : String} {d : DetectionResult}
    (h : detect_deniz_by_text_name t = some d) :
    d = ⟨"DENIZBANK", "DenizBank", none, "text-name"⟩ := by
  unfold detect_deniz_by_text_name at h
  split at h
  · cases h; rfl
  · cases h

theorem ocr_domains_shape {doc : PdfDoc} {d : DetectionResult}
    (h : detect_bank_by_ocr_domains doc = some d) :
    (d.key = "DENIZBANK" ∨ d.key = "ZIRAATKATILIM" ∨ d.key = "ALBARAKA")
      ∧ d.method = "ocr-domain" := by
  simp only [detect_bank_by_ocr_domains] at h
  by_cases hr : doc.ocrRaw = ""
  · rw [if_pos hr] at h; cases h
  · rw [if_neg hr] at h
    obtain ⟨e, he, h2⟩ := List.exists_of_findSome?_eq_some h
    obtain ⟨dom, hdom, h3⟩ := List.exists_of_findSome?_eq_some h2
    by_cases hd : _has_domain_ocr (normalize_text doc.ocrRaw) dom
    · rw [if_pos hd] at h3
      cases h3
      refine ⟨?_, rfl⟩
      simp only [OCR_DOMAIN_BANKS, List.mem_cons, List.not_mem_nil, or_false] at he
      rcases he with rfl | rfl | rfl <;> simp
    · rw [if_neg hd] at h3
      cases h3

theorem detect_eq_of_text {doc : PdfDoc} {d : DetectionResult}
    (h : detect_bank_by_text_domains (normalize_text (extract_text doc 2)) = some d) :
    detect_bank_variant doc =
      ⟨(apply_variant d.key (normalize_text (extract_text doc 2))).1, d.bank,
       (apply_variant d.key (normalize_text (extract_text doc 2))).2, d.method⟩ := by
  simp only [detect_bank_variant, h]

theorem detect_eq_of_name {doc : PdfDoc} {d : DetectionResult}
    (h0 : detect_bank_by_text_domains (normalize_text (extract_text doc 2)) = none)
    (h1 : detect_deniz_by_text_name (normalize_text (extract_text doc 2)) = some d) :
    detect_bank_variant doc =
      ⟨(apply_variant d.key (normalize_text (extract_text doc 2))).1, d.bank,
       (apply_variant d.key (normalize_text (extract_text doc 2))).2, d.method⟩ := by
  simp only [detect_bank_variant, h0, h1]

theorem detect_eq_of_ocr {doc : PdfDoc} {d : DetectionResult}
    (h0 : detect_bank_by_text_domains (normalize_text (extract_text doc 2)) = none)
    (h1 : detect_deniz_by_text_name (normalize_text (extract_text doc 2)) = none)
    (h2 : detect_bank_by_ocr_domains doc = some d) :
    detect_bank_variant doc =
      ⟨(apply_variant d.key (normalize_text (extract_text doc 2))).1, d.bank,
       (apply_variant d.key (normalize_text (extract_text doc 2))).2, d.method⟩ := by
  simp only [detect_bank_variant, h0, h1, h2]

theorem detect_eq_none {doc : PdfDoc}
    (h0 : detect_bank_by_text_domains (normalize_text (extract_text doc 2)) = none)
    (h1 : detect_deniz_by_text_name (normalize_text (extract_text doc 2)) = none)
    (h2 : detect_bank_by_ocr_domains doc = none) :
    detect_bank_variant doc = ⟨"UNKNOWN", "Unknown", none, "none"⟩ := by
  simp only [detect_bank_variant, h0, h1, h2]

/-- C9: in the current rule registry, variant rules never remap the bank
identity: for every bank key and every normalized text, the key returned by
`apply_variant` equals its input key. -/
theorem claim9_variant_preserves_key (bank_key text_norm : String) :
    (apply_variant bank_key text_norm).1 = bank_key :=
  apply_variant_fst bank_key text_norm

/-- C7: a resolved bank with a registered variant rule (DENIZBANK or
ALBARAKA) but no matching marker gets the string variant "UNKNOWN"; a bank
with no registered rule passes through with variant `none` and its key
unchanged. -/
theorem claim7_variant_default :
    (∀ k t : String, k ≠ "DENIZBANK" → k ≠ "ALBARAKA" →
      apply_variant k t = (k, none)) ∧
    (∀ t : String, searchWord "fast".data t.data = false →
      apply_variant "DENIZBANK" t = ("DENIZBANK", some "UNKNOWN")) ∧
    (∀ t : String, searchWord "fast".data t.data = false →
      pyIn "fast sorgu numarasi".data t.data = false →
      apply_variant "ALBARAKA" t = ("ALBARAKA", some "UNKNOWN")) := by
  refine ⟨?_, ?_, ?_⟩
  · intro k t h1 h2
    unfold apply_variant VARIANT_AFTER_BANK
    rw [if_neg h1, if_neg h2]
  · intro t h
    have he : apply_variant "DENIZBANK" t
        = ((_variant_deniz t).1, some (_variant_deniz t).2) := rfl
    rw [he]
    unfold _variant_deniz
    rw [if_neg (by simp [h])]
  · intro t h1 h2
    have he : apply_variant "ALBARAKA" t
        = ((_variant_albaraka t).1, some (_variant_albaraka t).2) := rfl
    rw [he]
    unfold _variant_albaraka
    rw [if_neg (by simp [h1, h2])]

theorem claim7_variant_default_witness :
    apply_variant "ISBANK" "odeme dekontu" = ("ISBANK", none) ∧
    apply_variant "DENIZBANK" "odeme dekontu" = ("DENIZBANK", some "UNKNOWN") ∧
    apply_variant "ALBARAKA" "odeme dekontu" = ("ALBARAKA", some "UNKNOWN") :=
  ⟨claim7_variant_default.1 "ISBANK" "odeme dekontu" (by decide) (by decide),
   claim7_variant_default.2.1 "odeme dekontu" (by decide),
   claim7_variant_default.2.2 "odeme dekontu" (by decide) (by decide)⟩

/-- C1: the three attempts are ordered and the first success wins: a
text-domain hit fixes the result (method, key and bank) regardless of any
name markers; the name fallback is reachable only when no domain matched,
and the OCR attempt only when both text attempts failed. -/
theorem claim1_cascade_precedence (doc : PdfDoc) :
    (∀ d : DetectionResult,
        detect_bank_by_text_domains (normalize_text (extract_text doc 2)) = some d →
        (detect_bank_variant doc).method = "text-domain" ∧
        (detect_bank_variant doc).key = d.key ∧
        (detect_bank_variant doc).bank = d.bank) ∧
    ((detect_bank_variant doc).method = "text-name" →
      detect_bank_by_text_domains (normalize_text (extract_text doc 2)) = none) ∧
    ((detect_bank_variant doc).method = "ocr-domain" →
      detect_bank_by_text_domains (normalize_text (extract_text doc 2)) = none ∧
      detect_deniz_by_text_name (normalize_text (extract_text doc 2)) = none) := by
  refine ⟨?_, ?_, ?_⟩
  · intro d h
    rw [detect_eq_of_text h]
    exact ⟨(text_domains_shape h).1, apply_variant_fst _ _, rfl⟩
  · intro hm
    cases h0 : detect_bank_by_text_domains (normalize_text (extract_text doc 2)) with
    | none => rfl
    | some d =>
      rw [detect_eq_of_text h0] at hm
      have hm' : d.method = "text-name" := hm
      rw [(text_domains_shape h0).1] at hm'
      exact absurd hm' (by decide)
  · intro hm
    cases h0 : detect_bank_by_text_domains (normalize_text (extract_text doc 2)) with
    | some d =>
      rw [detect_eq_of_text h0] at hm
      have hm' : d.method = "ocr-domain" := hm
      rw [(text_domains_shape h0).1] at hm'
      exact absurd hm' (by decide)
    | none =>
      cases h1 : detect_deniz_by_text_name (normalize_text (extract_text doc 2)) with
      | none => exact ⟨rfl, rfl⟩
      | some d =>
        rw [detect_eq_of_name h0 h1] at hm
        have hm' : d.method = "ocr-domain" := hm
        rw [deniz_shape h1] at hm'
        exact absurd hm' (by decide)

theorem claim1_cascade_precedence_witness :
    (detect_bank_variant ⟨["isbank.com.tr denizbank"], true, ""⟩).method = "text-domain" ∧
    (detect_bank_variant ⟨["isbank.com.tr denizbank"], true, ""⟩).key = "ISBANK" ∧
    (detect_bank_variant ⟨["isbank.com.tr denizbank"], true, ""⟩).bank = "Isbank" :=
  (claim1_cascade_precedence ⟨["isbank.com.tr denizbank"], true, ""⟩).1
    ⟨"ISBANK", "Isbank", none, "text-domain"⟩ (by decide)

/-- C2: the OCR path can only ever return an allowlisted bank key, so a
document whose text attempts fail resolves either to UNKNOWN or to one of
DENIZBANK, ZIRAATKATILIM, ALBARAKA — never to any other bank, whatever
appears in the OCR output. -/
theorem claim2_ocr_allowlist :
    (∀ (doc : PdfDoc) (d : DetectionResult),
        detect_bank_by_ocr_domains doc = some d →
        d.key = "DENIZBANK" ∨ d.key = "ZIRAATKATILIM" ∨ d.key = "ALBARAKA") ∧
    (∀ doc : PdfDoc,
        detect_bank_by_text_domains (normalize_text (extract_text doc 2)) = none →
        detect_deniz_by_text_name (normalize_text (extract_text doc 2)) = none →
        (detect_bank_variant doc).key = "UNKNOWN" ∨
        (detect_bank_variant doc).key = "DENIZBANK" ∨
        (detect_bank_variant doc).key = "ZIRAATKATILIM" ∨
        (detect_bank_variant doc).key = "ALBARAKA") := by
  constructor
  · intro doc d h
    exact (ocr_domains_shape h).1
  · intro doc h0 h1
    cases h2 : detect_bank_by_ocr_domains doc with
    | none =>
      left
      rw [detect_eq_none h0 h1 h2]
    | some d =>
      right
      have hk := (ocr_domains_shape h2).1
      rw [detect_eq_of_ocr h0 h1 h2]
      simp only [apply_variant_fst]
      exact hk

theorem claim2_ocr_allowlist_witness :
    ((⟨"DENIZBANK", "DenizBank", none, "ocr-domain"⟩ : DetectionResult).key = "DENIZBANK" ∨
      (⟨"DENIZBANK", "DenizBank", none, "ocr-domain"⟩ : DetectionResult).key = "ZIRAATKATILIM" ∨
      (⟨"DENIZBANK", "DenizBank", none, "ocr-domain"⟩ : DetectionResult).key = "ALBARAKA") ∧
    ((detect_bank_variant ⟨[], true, "akbank.com hosgeldiniz"⟩).key = "UNKNOWN" ∨
      (detect_bank_variant ⟨[], true, "akbank.com hosgeldiniz"⟩).key = "DENIZBANK" ∨
      (detect_bank_variant ⟨[], true, "akbank.com hosgeldiniz"⟩).key = "ZIRAATKATILIM" ∨
      (detect_bank_variant ⟨[], true, "akbank.com hosgeldiniz"⟩).key = "ALBARAKA") :=
  ⟨claim2_ocr_allowlist.1 ⟨[], true, "denizbank.com.tr"⟩
      ⟨"DENIZBANK", "DenizBank", none, "ocr-domain"⟩ (by decide),
   claim2_ocr_allowlist.2 ⟨[], true, "akbank.com hosgeldiniz"⟩ (by decide) (by decide)⟩

/-- C3: when all three attempts fail, `detect_bank_variant` returns exactly
the UNKNOWN sentinel, with no variant rule applied to it.  (In the
embedding, totality holds by construction: the source's try/except blocks
collapse every extraction failure to the empty string.) -/
theorem claim3_unknown_sentinel (doc : PdfDoc)
    (h0 : detect_bank_by_text_domains (normalize_text (extract_text doc 2)) = none)
    (h1 : detect_deniz_by_text_name (normalize_text (extract_text doc 2)) = none)
    (h2 : detect_bank_by_ocr_domains doc = none) :
    detect_bank_variant doc = ⟨"UNKNOWN", "Unknown", none, "none"⟩ :=
  detect_eq_none h0 h1 h2

theorem claim3_unknown_sentinel_witness :
    detect_bank_variant ⟨[], true, ""⟩ = ⟨"UNKNOWN", "Unknown", none, "none"⟩ ∧
    detect_bank_variant ⟨["raw bytes of a non-pdf file"], false, ""⟩
      = ⟨"UNKNOWN", "Unknown", none, "none"⟩ :=
  ⟨claim3_unknown_sentinel ⟨[], true, ""⟩ (by decide) (by decide) (by decide),
   claim3_unknown_sentinel ⟨["raw bytes of a non-pdf file"], false, ""⟩
     (by decide) (by decide) (by decide)⟩

/-- C10: the variant is decided from the normalized text layer, never from
the OCR output: a bank resolved via the OCR path whose variant markers are
absent from the text layer gets variant "UNKNOWN" when its rule is
registered, even if the markers occur in the OCR text. -/
theorem claim10_variant_from_text_layer (doc : PdfDoc) (d : DetectionResult)
    (h0 : detect_bank_by_text_domains (normalize_text (extract_text doc 2)) = none)
    (h1 : detect_deniz_by_text_name (normalize_text (extract_text doc 2)) = none)
    (h2 : detect_bank_by_ocr_domains doc = some d)
    (hk : d.key = "DENIZBANK" ∨ d.key = "ALBARAKA")
    (hf : searchWord "fast".data (normalize_text (extract_text doc 2)).data = false)
    (hs : pyIn "fast sorgu numarasi".data (normalize_text (extract_text doc 2)).data = false) :
    (detect_bank_variant doc).variant = some "UNKNOWN" := by
  rw [detect_eq_of_ocr h0 h1 h2]
  show (apply_variant d.key (normalize_text (extract_text doc 2))).2 = some "UNKNOWN"
  rcases hk with hk | hk
  · rw [hk]
    have he : apply_variant "DENIZBANK" (normalize_text (extract_text doc 2))
        = ((_variant_deniz (normalize_text (extract_text doc 2))).1,
           some (_variant_deniz (normalize_text (extract_text doc 2))).2) := rfl
    rw [he]
    unfold _variant_deniz
    rw [if_neg (by simp [hf])]
  · rw [hk]
    have he : apply_variant "ALBARAKA" (normalize_text (extract_text doc 2))
        = ((_variant_albaraka (normalize_text (extract_text doc 2))).1,
           some (_variant_albaraka (normalize_text (extract_text doc 2))).2) := rfl
    rw [he]
    unfold _variant_albaraka
    rw [if_neg (by simp [hf, hs])]

theorem claim10_variant_from_text_layer_witness :
    (detect_bank_variant ⟨[], true, "denizbank.com.tr fast"⟩).variant = some "UNKNOWN" :=
  claim10_variant_from_text_layer ⟨[], true, "denizbank.com.tr fast"⟩
    ⟨"DENIZBANK", "DenizBank", none, "ocr-domain"⟩
    (by decide) (by decide) (by decide) (by decide) (by decide) (by decide)

/-- C5: normalization folds domestic-locale letters to plain Latin:
`normalize_text "İSBANK"` is `"isbank"` (no domestic-locale letter
codepoints survive), and `normalize_text "ŞİRKET İŞ"` contains
`"sirket is"`. -/
theorem claim5_normalization_folding :
    normalize_text "İSBANK" = "isbank" ∧
    ((normalize_text "İSBANK").data.all fun c =>
      !(['ı', 'ö', 'ü', 'ş', 'ğ', 'ç',
         'İ', 'Ş', 'Ğ', 'Ç', 'Ö', 'Ü'].contains c)) = true ∧
    pyIn "sirket is".data (normalize_text "ŞİRKET İŞ").data = true :=
  ⟨by decide, by decide, by decide⟩

/-- C8 counterexample: the conversion call in `ocr_first_page_text` passes no
DPI, so the pdf2image default of 200 applies — outside the claimed 350–400
range. -/
theorem claim8_counterexample :
    ¬(350 ≤ ocrConvertCall.dpi ∧ ocrConvertCall.dpi ≤ 400) := by decide

/-- C8 (amended): `ocr_first_page_text` rasterizes only the first page
(first_page = last_page = 1), at the library-default DPI of 200, and returns
the empty string on every failure outcome (missing dependencies, a raised
conversion/recognition step, no images, falsy recognition output). -/
theorem claim8_amended :
    ocrConvertCall.first_page = 1 ∧ ocrConvertCall.last_page = 1 ∧
    ocrConvertCall.dpi = 200 ∧
    ocr_first_page_text OcrOutcome.depsMissing = "" ∧
    ocr_first_page_text OcrOutcome.stepRaised = "" ∧
    ocr_first_page_text OcrOutcome.noImages = "" ∧
    ocr_first_page_text (OcrOutcome.recognized none) = "" :=
  ⟨rfl, rfl, rfl, rfl, rfl, rfl, rfl⟩

/-- C6 counterexample: for the empty domain, tier (a) of the spec's
description holds trivially (the empty string is a substring of every text)
but `has_domain` returns false, so the claimed three-tier equivalence fails
as stated. -/
theorem claim6_counterexample :
    has_domain "abc" "" = false ∧ specTierPlain "abc" "" = true :=
  ⟨by decide, by decide⟩

/-- C6 (amended): whenever the casefolded, trimmed domain is nonempty and
yields at least one nonempty dot-separated label, `has_domain` succeeds if
and only if one of its three tiers succeeds (tried in order); in particular
the whitespace-split `"isbank .com. tr"` still matches. -/
theorem claim6_amended :
    (∀ t dom : String,
        stripChars (caseFold dom.data) ≠ [] →
        domParts (stripChars (caseFold dom.data)) ≠ [] →
        has_domain t dom
          = (specTierPlain t dom || specTierCompact t dom || specTierRegex t dom)) ∧
    has_domain (normalize_text "xx isbank .com. tr yy") "isbank.com.tr" = true := by
  constructor
  · intro t dom h1 h2
    simp only [has_domain, specTierPlain, specTierCompact, specTierRegex]
    rw [if_neg h1]
    by_cases hab : (pyIn (stripChars (caseFold dom.data)) t.data
        || pyIn (stripChars (caseFold dom.data))
             (t.data.filter fun c => !isPyWs c)) = true
    · rw [if_pos hab]
      simp only [Bool.or_eq_true] at hab
      rcases hab with h | h <;> simp [h]
    · rw [if_neg hab, if_neg h2]
      simp only [Bool.or_eq_true, not_or, Bool.not_eq_true] at hab
      simp [hab.1, hab.2]
  · decide

theorem claim6_amended_witness :
    stripChars (caseFold ("isbank.com.tr" : String).data) ≠ [] ∧
    domParts (stripChars (caseFold ("isbank.com.tr" : String).data)) ≠ [] ∧
    has_domain "xx isbank .com. tr yy" "isbank.com.tr"
      = (specTierPlain "xx isbank .com. tr yy" "isbank.com.tr"
          || specTierCompact "xx isbank .com. tr yy" "isbank.com.tr"
          || specTierRegex "xx isbank .com. tr yy" "isbank.com.tr") :=
  ⟨by decide, by decide,
   claim6_amended.1 "xx isbank .com. tr yy" "isbank.com.tr" (by decide) (by decide)⟩

theorem caseFoldChar_fixed_of_table :
    ∀ p ∈ caseFoldTable, ∀ d ∈ p.2, caseFoldChar d = [d] := by decide

theorem trFold_out_fixed :
    ∀ p ∈ trTable, caseFoldChar p.2 = [p.2] ∧ trFold p.2 = p.2 ∧ p.2 ≠ '\u0307' := by
  decide

theorem space_charInv : charInv ' ' := by
  refine ⟨by decide, by decide, by decide⟩

theorem mem_caseFold_fixed {x : List Char} {d : Char} (h : d ∈ caseFold x) :
    caseFoldChar d = [d] := by
  unfold caseFold at h
  rw [List.mem_flatten] at h
  obtain ⟨l2, hl2, hd⟩ := h
  rw [List.mem_map] at hl2
  obtain ⟨c, hc, rfl⟩ := hl2
  unfold caseFoldChar at hd
  cases hfind : caseFoldTable.find? (fun p => p.1 == c) with
  | none =>
    rw [hfind] at hd
    simp at hd
    subst hd
    unfold caseFoldChar
    rw [hfind]
  | some p =>
    rw [hfind] at hd
    exact caseFoldChar_fixed_of_table p (List.mem_of_find?_eq_some hfind) d hd

theorem caseFold_eq_self {l : List Char} (h : ∀ d ∈ l, caseFoldChar d = [d]) :
    caseFold l = l := by
  induction l with
  | nil => rfl
  | cons c t ih =>
    have hc : caseFold (c :: t) = caseFoldChar c ++ caseFold t := by
      simp [caseFold]
    rw [hc, h c (by simp), ih (fun d hd => h d (by simp [hd]))]
    rfl

theorem map_trFold_eq_self {l : List Char} (h : ∀ d ∈ l, trFold d = d) :
    l.map trFold = l := by
  induction l with
  | nil => rfl
  | cons c t ih =>
    simp only [List.map_cons, h c (by simp),
      ih (fun d hd => h d (by simp [hd]))]

theorem charInv_trFold {d : Char} (h1 : caseFoldChar d = [d]) (h2 : d ≠ '\u0307') :
    charInv (trFold d) := by
  cases hfind : trTable.find? (fun p => p.1 == d) with
  | none =>
    have he : trFold d = d := by unfold trFold; rw [hfind]
    rw [he]
    exact ⟨h1, he, h2⟩
  | some p =>
    have he : trFold d = p.2 := by unfold trFold; rw [hfind]
    rw [he]
    exact trFold_out_fixed p (List.mem_of_find?_eq_some hfind)

theorem normStage3_inv (x : List Char) :
    ∀ d ∈ ((caseFold x).filter (fun c => c != '\u0307')).map trFold, charInv d := by
  intro d hd
  rw [List.mem_map] at hd
  obtain ⟨e, he, rfl⟩ := hd
  rw [List.mem_filter] at he
  obtain ⟨he1, he2⟩ := he
  exact charInv_trFold (mem_caseFold_fixed he1) (by simpa using he2)

theorem subWsF_mem : ∀ (l : List Char) (b : Bool) (d : Char),
    d ∈ subWsF b l → d = ' ' ∨ d ∈ l := by
  intro l
  induction l with
  | nil => intro b d h; simp [subWsF] at h
  | cons c t ih =>
    intro b d h
    by_cases hc : isPyWs c
    · cases b with
      | true =>
        rw [show subWsF true (c :: t) = subWsF true t by simp [subWsF, hc]] at h
        rcases ih true d h with h1 | h1
        · exact Or.inl h1
        · exact Or.inr (List.mem_cons_of_mem c h1)
      | false =>
        rw [show subWsF false (c :: t) = ' ' :: subWsF true t by
              simp [subWsF, hc]] at h
        rcases List.mem_cons.mp h with h1 | h1
        · exact Or.inl h1
        · rcases ih true d h1 with h2 | h2
          · exact Or.inl h2
          · exact Or.inr (List.mem_cons_of_mem c h2)
    · rw [show subWsF b (c :: t) = c :: subWsF false t by simp [subWsF, hc]] at h
      rcases List.mem_cons.mp h with h1 | h1
      · exact Or.inr (by simp [h1])
      · rcases ih false d h1 with h2 | h2
        · exact Or.inl h2
        · exact Or.inr (List.mem_cons_of_mem c h2)

theorem subWsF_ws_space : ∀ (l : List Char) (b : Bool) (d : Char),
    d ∈ subWsF b l → isPyWs d → d = ' ' := by
  intro l
  induction l with
  | nil => intro b d h; simp [subWsF] at h
  | cons c t ih =>
    intro b d h hw
    by_cases hc : isPyWs c
    · cases b with
      | true =>
        rw [show subWsF true (c :: t) = subWsF true t by simp [subWsF, hc]] at h
        exact ih true d h hw
      | false =>
        rw [show subWsF false (c :: t) = ' ' :: subWsF true t by
              simp [subWsF, hc]] at h
        rcases List.mem_cons.mp h with h1 | h1
        · exact h1
        · exact ih true d h1 hw
    · rw [show subWsF b (c :: t) = c :: subWsF false t by simp [subWsF, hc]] at h
      rcases List.mem_cons.mp h with h1 | h1
      · subst h1; exact absurd hw hc
      · exact ih false d h1 hw

theorem subWsF_true_head : ∀ (l : List Char) (c : Char) (t : List Char),
    subWsF true l = c :: t → isPyWs c = false := by
  intro l
  induction l with
  | nil => intro c t h; simp [subWsF] at h
  | cons a r ih =>
    intro c t h
    by_cases ha : isPyWs a
    · rw [show subWsF true (a :: r) = subWsF true r by simp [subWsF, ha]] at h
      exact ih c t h
    · rw [show subWsF true (a :: r) = a :: subWsF false r by simp [subWsF, ha]] at h
      injection h with h1 h2
      subst h1
      simpa using ha

theorem subWsF_chain : ∀ (l : List Char) (b : Bool),
    List.Chain' noTwoWs (subWsF b l) := by
  intro l
  induction l with
  | nil => intro b; simp [subWsF]
  | cons c t ih =>
    intro b
    by_cases hc : isPyWs c
    · cases b with
      | true =>
        rw [show subWsF true (c :: t) = subWsF true t by simp [subWsF, hc]]
        exact ih true
      | false =>
        rw [show subWsF false (c :: t) = ' ' :: subWsF true t by
              simp [subWsF, hc]]
        rw [List.chain'_cons']
        refine ⟨?_, ih true⟩
        intro y hy
        cases ht : subWsF true t with
        | nil => rw [ht] at hy; simp at hy
        | cons e t' =>
          rw [ht] at hy
          simp at hy
          subst hy
          intro hcontra
          rw [subWsF_true_head t e t' ht] at hcontra
          exact absurd hcontra.2 (by simp)
    · rw [show subWsF b (c :: t) = c :: subWsF false t by simp [subWsF, hc]]
      rw [List.chain'_cons']
      refine ⟨?_, ih false⟩
      intro y hy
      intro hcontra
      exact hc (by simp [hcontra.1])

theorem subWsF_false_eq_self : ∀ l : List Char,
    (∀ d ∈ l, isPyWs d → d = ' ') → List.Chain' noTwoWs l →
    subWsF false l = l := by
  intro l
  induction l with
  | nil => intro _ _; rfl
  | cons c t ih =>
    intro hws hch
    rw [List.chain'_cons'] at hch
    obtain ⟨hhead, hch'⟩ := hch
    by_cases hc : isPyWs c
    · have hcsp : c = ' ' := hws c (by simp) hc
      subst hcsp
      rw [show subWsF false (' ' :: t) = ' ' :: subWsF true t by
            simp [subWsF, hc]]
      have ht : subWsF true t = subWsF false t := by
        cases t with
        | nil => rfl
        | cons e t' =>
          have hne : ¬ isPyWs e = true := by
            have hr := hhead e (by simp)
            intro hh
            exact hr ⟨by decide, hh⟩
          simp [subWsF, hne]
      rw [ht, ih (fun d hd hw => hws d (List.mem_cons_of_mem _ hd) hw) hch']
    · rw [show subWsF false (c :: t) = c :: subWsF false t by simp [subWsF, hc]]
      rw [ih (fun d hd hw => hws d (List.mem_cons_of_mem _ hd) hw) hch']

theorem dropWhile_head_false (p : Char → Bool) :
    ∀ (l : List Char) (c : Char) (t : List Char),
      l.dropWhile p = c :: t → p c = false := by
  intro l
  induction l with
  | nil => intro c t h; simp [List.dropWhile] at h
  | cons a r ih =>
    intro c t h
    by_cases ha : p a
    · rw [List.dropWhile_cons, if_pos ha] at h
      exact ih c t h
    · rw [List.dropWhile_cons, if_neg ha] at h
      injection h with h1 h2
      subst h1
      simpa using ha

theorem dropWhile_eq_self_of (p : Char → Bool) (l : List Char)
    (h : ∀ c t, l = c :: t → p c = false) : l.dropWhile p = l := by
  cases l with
  | nil => rfl
  | cons a r => rw [List.dropWhile_cons, if_neg (by simp [h a r rfl])]

theorem stripChars_head_false :
    ∀ (x : List Char) (c : Char) (t : List Char),
      stripChars x = c :: t → isPyWs c = false := by
  intro x c t h
  unfold stripChars at h
  obtain ⟨w, hw⟩ :=
    List.dropWhile_suffix (l := (x.dropWhile isPyWs).reverse) isPyWs
  have hu : x.dropWhile isPyWs
      = ((x.dropWhile isPyWs).reverse.dropWhile isPyWs).reverse ++ w.reverse := by
    have h2 := congrArg List.reverse hw
    rw [List.reverse_append, List.reverse_reverse] at h2
    exact h2.symm
  rw [h] at hu
  exact dropWhile_head_false isPyWs x c (t ++ w.reverse) (by simpa using hu)

theorem stripChars_rev_head_false :
    ∀ (x : List Char) (c : Char) (t : List Char),
      (stripChars x).reverse = c :: t → isPyWs c = false := by
  intro x c t h
  unfold stripChars at h
  rw [List.reverse_reverse] at h
  exact dropWhile_head_false isPyWs _ c t h

theorem stripChars_eq_self (l : List Char)
    (h1 : ∀ c t, l = c :: t → isPyWs c = false)
    (h2 : ∀ c t, l.reverse = c :: t → isPyWs c = false) :
    stripChars l = l := by
  unfold stripChars
  rw [dropWhile_eq_self_of isPyWs l h1,
    dropWhile_eq_self_of isPyWs l.reverse h2, List.reverse_reverse]

theorem chain'_noTwoWs_reverse {l : List Char} (h : List.Chain' noTwoWs l) :
    List.Chain' noTwoWs l.reverse := by
  rw [List.chain'_reverse]
  exact h.imp fun a b hab hh => hab ⟨hh.2, hh.1⟩

theorem chain'_noTwoWs_suffix {l1 l2 : List Char} (h : l1 <:+ l2)
    (hc : List.Chain' noTwoWs l2) : List.Chain' noTwoWs l1 := by
  obtain ⟨w, rfl⟩ := h
  exact (List.chain'_append.mp hc).2.1

theorem stripChars_chain {l : List Char} (h : List.Chain' noTwoWs l) :
    List.Chain' noTwoWs (stripChars l) := by
  unfold stripChars
  apply chain'_noTwoWs_reverse
  apply chain'_noTwoWs_suffix (List.dropWhile_suffix isPyWs)
  apply chain'_noTwoWs_reverse
  exact chain'_noTwoWs_suffix (List.dropWhile_suffix isPyWs) h

theorem stripChars_subset {l : List Char} {d : Char} (h : d ∈ stripChars l) :
    d ∈ l := by
  unfold stripChars at h
  rw [List.mem_reverse] at h
  have h2 := (List.dropWhile_sublist (l := (l.dropWhile isPyWs).reverse) isPyWs).subset h
  rw [List.mem_reverse] at h2
  exact (List.dropWhile_sublist isPyWs).subset h2

theorem normCore_inv (x : List Char) :
    (∀ d ∈ normCore x, charInv d ∧ (isPyWs d → d = ' ')) ∧
    List.Chain' noTwoWs (normCore x) ∧
    (∀ c t, normCore x = c :: t → isPyWs c = false) ∧
    (∀ c t, (normCore x).reverse = c :: t → isPyWs c = false) := by
  refine ⟨?_, ?_, ?_, ?_⟩
  · intro d hd
    have hd4 : d ∈ subWsF false (((caseFold x).filter
        (fun c => c != '̇')).map trFold) := stripChars_subset hd
    constructor
    · rcases subWsF_mem _ false d hd4 with h | h
      · subst h; exact space_charInv
      · exact normStage3_inv x d h
    · intro hw
      exact subWsF_ws_space _ false d hd4 hw
  · exact stripChars_chain (subWsF_chain _ false)
  · intro c t h
    exact stripChars_head_false _ c t h
  · intro c t h
    exact stripChars_rev_head_false _ c t h

theorem normCore_fixed {y : List Char}
    (hinv : ∀ d ∈ y, charInv d ∧ (isPyWs d → d = ' '))
    (hch : List.Chain' noTwoWs y)
    (hh : ∀ c t, y = c :: t → isPyWs c = false)
    (hl : ∀ c t, y.reverse = c :: t → isPyWs c = false) :
    normCore y = y := by
  unfold normCore
  rw [caseFold_eq_self (fun d hd => ((hinv d hd).1).1)]
  rw [List.filter_eq_self.mpr
    (fun d hd => by simpa using ((hinv d hd).1).2.2)]
  rw [map_trFold_eq_self (fun d hd => ((hinv d hd).1).2.1)]
  rw [show subWs y = y from
    subWsF_false_eq_self y (fun d hd => (hinv d hd).2) hch]
  exact stripChars_eq_self y hh hl

/-- C4: `normalize_text` is a fixed point under self-composition: normalizing
already-normalized text changes nothing. -/
theorem claim4_normalize_idempotent (s : String) :
    normalize_text (normalize_text s) = normalize_text s := by
  have hnorm : ∀ u : String, normalize_text u = ⟨normCore u.data⟩ :=
    fun u => rfl
  rw [hnorm s, hnorm ⟨normCore s.data⟩]
  obtain ⟨hinv, hch, hh, hl⟩ := normCore_inv s.data
  exact congrArg String.mk (normCore_fixed hinv hch hh hl)
